import Mathlib

/-!
Verification of the musicd Playback Engine (src/player.rs, src/playlist.rs,
src/notifier.rs) against its natural-language specification.

The playback thread of `PlayerHandle::new` is embedded as a small-step state
machine. Its program counter `PC` records which loop of the thread body is
about to run its next pass:

* `start`       — thread entry, about to open the default audio output device;
* `halted`      — the thread body returned (device open failed);
* `outer`       — top of the outer (playlist-level) loop;
* `inner`       — top of the inner (track-level) loop, about to wrap the index,
                  emit track-changed and open/decode the file;
* `tick`        — the per-track tick loop (status refresh, empty-check, one
                  `try_recv` per tick);
* `checkpoint`  — after the tick loop broke: re-read the playlist pointer and
                  decide whether to reload.

Everything the thread observes from its environment on one pass — the outcome
of each `try_lock`/`try_read`, the parsed sidecar, open/decode success, the
sink draining, timer expiry — is an `Env` record consumed by that pass.
Paths are strings, durations are naturals, `f32` volume is modelled by `ℚ`.
-/

namespace Musicd

/-- From src/playlist.rs `PlaylistMeta` (the `created_at` timestamp is an
abstract instant, modelled as a natural number). -/
structure PlaylistMeta where
  id : String
  name : String
  created_at : Nat
  sources : List String
  tracks : List String
deriving DecidableEq

/-- From src/notifier.rs `Notification` (durations as naturals, `f32` as `ℚ`). -/
inductive Notification where
  | played
  | paused
  | trackChanged (idx : Nat) (name : String)
  | trackDurationChanged (duration : Option Nat)
  | playlistChanged (id : String) (name : String)
  | playlistPublished (id : String)
  | seekPositionChanged (duration : Nat)
  | volumeChanged (value : ℚ)
  | jobsUpdated
  | runningJob (id : String)
deriving DecidableEq

/-- From src/player.rs `PlayerCommand`. -/
inductive PlayerCommand where
  | play
  | pause
  | prev
  | next
  | seek (secs : Nat)
  | setVolume (value : ℚ)
  | setIndex (index : Nat)
deriving DecidableEq

/-- From src/player.rs `SetPlaylistMode`. -/
inductive SetPlaylistMode where
  | queue
  | skip
deriving DecidableEq

/-- From src/player.rs `PlayerStatus`; the field defaults are those of the Rust
`#[derive(Default)]`. -/
structure PlayerStatus where
  playlist_id : Option String := none
  playlist_name : Option String := none
  current_index : Nat := 0
  current_track : Option String := none
  current_pos : Option Nat := none
  total_duration : Option Nat := none
  is_paused : Option Bool := none
  volume : Option ℚ := none
deriving DecidableEq

/-- From src/player.rs `PlayerConfig`. -/
structure PlayerConfig where
  auto_play : Bool := false
  default_audio_effects : Bool := false
deriving DecidableEq

/-- The rodio `Sink` as the thread observes it: whether a source is queued
(`sink.empty()` is its negation), the pause flag, and the volume.
`Sink::connect_new` yields an empty, playing sink at volume 1. -/
structure SinkState where
  hasSource : Bool
  paused : Bool
  volume : ℚ
deriving DecidableEq

/-- A fresh sink, as created by `Sink::connect_new(stream_handle.mixer())`. -/
def SinkState.new : SinkState :=
  { hasSource := false, paused := false, volume := 1 }

/-- Program counter of the playback thread (see the file docstring). -/
inductive PC where
  | start
  | halted
  | outer
  | inner (dir : String) (meta : PlaylistMeta) (idx : Nat)
  | tick (dir : String) (meta : PlaylistMeta) (idx : Nat) (sink : SinkState)
  | checkpoint (dir : String) (meta : PlaylistMeta) (idx : Nat)
deriving DecidableEq

/-- The shared state of `PlayerInner` plus the program counter of the thread:
`playlist_dir: RwLock<Option<PathBuf>>`, `status: Mutex<PlayerStatus>`, and
the unbounded crossbeam channel contents (front = oldest pending command). -/
structure EngineState where
  pc : PC
  playlistDir : Option String
  status : PlayerStatus
  queue : List PlayerCommand
deriving DecidableEq

/-- Everything one pass of a loop body observes from outside: `try_read` /
`try_lock` outcomes, the parsed `playlist.json`, `File::open` + decoder
results, the sink draining, and the position-update timer. -/
structure Env where
  /-- `OutputStreamBuilder::open_default_stream()` succeeded. -/
  deviceOk : Bool := true
  /-- `playlist_dir.try_read()` succeeded. -/
  pdirLockOk : Bool := true
  /-- the first `status.try_lock()` of this pass succeeded. -/
  statusLockOk : Bool := true
  /-- the second `status.try_lock()` of this pass (total-duration write). -/
  statusLockOk2 : Bool := true
  /-- `read_to_string(dir/playlist.json)` followed by serde parse. -/
  readMeta : Option PlaylistMeta := none
  /-- `File::open` and `DecoderBuilder::build` both succeeded. -/
  openDecodeOk : Bool := true
  /-- `source.total_duration()` of the decoded source. -/
  decodedDuration : Option Nat := none
  /-- the queued source finished playing during this tick. -/
  trackEnded : Bool := false
  /-- `last_position_update_time.elapsed() >= position_update_duration`. -/
  positionDue : Bool := false
  /-- `sink.try_seek` succeeded. -/
  seekOk : Bool := true
  /-- `sink.get_pos()` at this tick. -/
  sinkPos : Nat := 0

/-- Result of one pass of a loop body: new program counter, the updated
shared state, the notifications emitted during the pass, whether the pass
executed a `thread::sleep`, and whether it called `sink.stop()`. -/
structure PhaseRes where
  pc : PC
  status : PlayerStatus
  queue : List PlayerCommand
  emitted : List Notification := []
  slept : Bool := false
  stopped : Bool := false
deriving DecidableEq

/-- The inner-loop entry wrap from src/player.rs lines 154-157:
`if idx >= meta.tracks.len() { idx = 0; }`. -/
def wrapIdx (idx len : Nat) : Nat :=
  if idx ≥ len then 0 else idx

/-- `value.clamp(0.0, 1.0)` on the volume. -/
def clampQ (v lo hi : ℚ) : ℚ :=
  min (max v lo) hi

/-- One pass of the outer (playlist-level) loop body, src/player.rs lines
96-151 and 348-350: read the pointer, parse the sidecar, emit
playlist-changed, reset the status, and bail out to idle on empty tracks. -/
def stepOuter (pdir : Option String) (st : PlayerStatus) (q : List PlayerCommand)
    (e : Env) : PhaseRes :=
  match (if e.pdirLockOk then pdir else none) with
  | none => { pc := PC.outer, status := st, queue := q, slept := true }
  | some dir =>
    match e.readMeta with
    | none => { pc := PC.outer, status := st, queue := q, slept := true }
    | some meta =>
      let ns := [Notification.playlistChanged meta.id meta.name]
      if e.statusLockOk then
        let st2 : PlayerStatus :=
          { playlist_id := some meta.id
            playlist_name := some meta.name
            current_index := 0
            current_track := none
            current_pos := none
            total_duration := none
            is_paused := none
            volume := none }
        if meta.tracks.isEmpty then
          { pc := PC.outer, status := st2, queue := q, emitted := ns, slept := true }
        else
          { pc := PC.inner dir meta 0, status := st2, queue := q, emitted := ns }
      else
        { pc := PC.outer, status := st, queue := q, emitted := ns, slept := true }

/-- One pass of the inner (track-level) loop preamble, src/player.rs lines
153-228: wrap the index, emit track-changed, write the status, create a
fresh sink, open/decode the file and append it (the optional effects chain
changes only the audio samples, not the state observed here), pausing
immediately unless `auto_play`. -/
def stepInner (cfg : PlayerConfig) (dir : String) (meta : PlaylistMeta)
    (idx0 : Nat) (st : PlayerStatus) (q : List PlayerCommand) (e : Env) : PhaseRes :=
  let len := meta.tracks.length
  let idx := wrapIdx idx0 len
  let track := meta.tracks.getD idx ""
  let n1 := Notification.trackChanged idx track
  if e.statusLockOk then
    let st1 := { st with current_index := idx, current_track := some track }
    if e.openDecodeOk then
      if e.statusLockOk2 then
        let st2 := { st1 with total_duration := e.decodedDuration }
        let ns := [n1, Notification.trackDurationChanged e.decodedDuration]
        if cfg.auto_play then
          { pc := PC.tick dir meta idx { hasSource := true, paused := false, volume := 1 }
            status := st2, queue := q, emitted := ns }
        else
          { pc := PC.tick dir meta idx { hasSource := true, paused := true, volume := 1 }
            status := st2, queue := q, emitted := ns ++ [Notification.paused] }
      else
        { pc := PC.inner dir meta idx, status := st1, queue := q
          emitted := [n1], slept := true }
    else
      { pc := PC.tick dir meta idx SinkState.new, status := st1, queue := q
        emitted := [n1] }
  else
    { pc := PC.inner dir meta idx, status := st, queue := q
      emitted := [n1], slept := true }

/-- One tick of the tick loop, src/player.rs lines 231-331: refresh the
status from the sink, maybe emit the rate-limited position event, advance
on an empty sink, else drain at most one command, then sleep unless the
tick broke out. -/
def stepTick (dir : String) (meta : PlaylistMeta) (idx : Nat) (sink : SinkState)
    (st : PlayerStatus) (q : List PlayerCommand) (e : Env) : PhaseRes :=
  if e.statusLockOk then
    let st1 := { st with current_pos := some e.sinkPos
                         is_paused := some sink.paused
                         volume := some sink.volume }
    let ns := if e.positionDue then [Notification.seekPositionChanged e.sinkPos] else []
    let sinkNow := if e.trackEnded then { sink with hasSource := false } else sink
    if sinkNow.hasSource then
      match q with
      | [] =>
        { pc := PC.tick dir meta idx sinkNow, status := st1, queue := q
          emitted := ns, slept := true }
      | c :: rest =>
        match c with
        | PlayerCommand.play =>
          { pc := PC.tick dir meta idx { sinkNow with paused := false }
            status := st1, queue := rest
            emitted := ns ++ [Notification.played], slept := true }
        | PlayerCommand.pause =>
          { pc := PC.tick dir meta idx { sinkNow with paused := true }
            status := st1, queue := rest
            emitted := ns ++ [Notification.paused], slept := true }
        | PlayerCommand.seek secs =>
          if e.seekOk then
            { pc := PC.tick dir meta idx sinkNow, status := st1, queue := rest
              emitted := ns ++ [Notification.seekPositionChanged secs], slept := true }
          else
            { pc := PC.tick dir meta idx sinkNow, status := st1, queue := rest
              emitted := ns, slept := true }
        | PlayerCommand.prev =>
          { pc := PC.checkpoint dir meta
              (if idx = 0 then meta.tracks.length - 1 else idx - 1)
            status := st1, queue := rest, emitted := ns, stopped := true }
        | PlayerCommand.next =>
          { pc := PC.checkpoint dir meta (idx + 1)
            status := st1, queue := rest, emitted := ns, stopped := true }
        | PlayerCommand.setVolume v =>
          let v2 := clampQ v 0 1
          { pc := PC.tick dir meta idx { sinkNow with volume := v2 }
            status := st1, queue := rest
            emitted := ns ++ [Notification.volumeChanged v2], slept := true }
        | PlayerCommand.setIndex i =>
          if i ≠ idx then
            { pc := PC.checkpoint dir meta i, status := st1, queue := rest
              emitted := ns, stopped := true }
          else
            { pc := PC.tick dir meta idx sinkNow, status := st1, queue := rest
              emitted := ns, slept := true }
    else
      { pc := PC.checkpoint dir meta (idx + 1), status := st1, queue := q
        emitted := ns }
  else
    { pc := PC.tick dir meta idx sink, status := st, queue := q, slept := true }

/-- The playlist-changed checkpoint after the tick loop breaks,
src/player.rs lines 333-346: re-read the pointer; on any difference (or a
failed `try_read`, which yields `None`) abandon the inner loop. -/
def stepCheckpoint (dir : String) (meta : PlaylistMeta) (idx : Nat)
    (pdir : Option String) (st : PlayerStatus) (q : List PlayerCommand)
    (e : Env) : PhaseRes :=
  let nowDir := if e.pdirLockOk then pdir else none
  if nowDir = some dir then
    { pc := PC.inner dir meta idx, status := st, queue := q }
  else
    { pc := PC.outer, status := st, queue := q }

/-- Result of one step of the whole machine. -/
structure StepRes where
  state : EngineState
  emitted : List Notification := []
  slept : Bool := false
  stopped : Bool := false
deriving DecidableEq

/-- One step of the playback thread: run the pass selected by the program
counter. The `start` pass is lines 82-88 (`open_default_stream`; on error
the closure returns, i.e. the thread halts). Note that the phase bodies of
the inner and tick loops receive no playlist pointer at all: the pointer is
read only at `outer` and `checkpoint`. -/
def step (cfg : PlayerConfig) (s : EngineState) (e : Env) : StepRes :=
  let r : PhaseRes :=
    match s.pc with
    | PC.start =>
      { pc := if e.deviceOk then PC.outer else PC.halted
        status := s.status, queue := s.queue }
    | PC.halted => { pc := PC.halted, status := s.status, queue := s.queue }
    | PC.outer => stepOuter s.playlistDir s.status s.queue e
    | PC.inner dir meta idx => stepInner cfg dir meta idx s.status s.queue e
    | PC.tick dir meta idx sink => stepTick dir meta idx sink s.status s.queue e
    | PC.checkpoint dir meta idx =>
      stepCheckpoint dir meta idx s.playlistDir s.status s.queue e
  { state :=
      { pc := r.pc, playlistDir := s.playlistDir, status := r.status, queue := r.queue }
    emitted := r.emitted, slept := r.slept, stopped := r.stopped }

/-- Run the thread for a list of per-pass environments. -/
def run (cfg : PlayerConfig) : EngineState → List Env → EngineState
  | s, [] => s
  | s, e :: es => run cfg (step cfg s e).state es

/-- The state right after `PlayerHandle::new` spawned the thread: empty
pointer, default status, empty channel, thread at its entry point. -/
def initState : EngineState :=
  { pc := PC.start, playlistDir := none, status := {}, queue := [] }

/-- From src/player.rs `PlayerHandle::new`: the only fallible operation in
`new` itself is `thread::Builder::spawn` (the `?` on line 352); opening the
audio device happens inside the already-spawned thread. -/
def PlayerHandle.new (spawnOk : Bool) : Option EngineState :=
  if spawnOk then some initState else none

/-- From src/player.rs `PlayerHandle::set_playlist_dir`: on a successful
`try_write` replace the pointer and, in `Skip` mode, also enqueue a `Next`
(via `self.next()`); on a failed `try_write` do nothing and return normally. -/
def set_playlist_dir (s : EngineState) (p : String) (mode : SetPlaylistMode)
    (writeLockOk : Bool) : EngineState :=
  if writeLockOk then
    let s1 := { s with playlistDir := some p }
    match mode with
    | SetPlaylistMode.queue => s1
    | SetPlaylistMode.skip => { s1 with queue := s1.queue ++ [PlayerCommand.next] }
  else s

/-- The command-sending façade methods (`play`/`pause`/`prev`/`next`/`seek`/
`set_volume`/`set_index`): an unconditional `send` on the unbounded channel,
its result discarded. -/
def sendCommand (s : EngineState) (c : PlayerCommand) : EngineState :=
  { s with queue := s.queue ++ [c] }

/-- From src/player.rs `PlayerHandle::status`: a snapshot on a successful
`try_lock`, an error otherwise. -/
def PlayerHandle.status (s : EngineState) (lockOk : Bool) : Option PlayerStatus :=
  if lockOk then some s.status else none

/-- The program counters a thread that survived device opening can be at. -/
def live : PC → Bool
  | PC.start => false
  | PC.halted => false
  | _ => true

/-- The reachability invariant behind in-bounds indexing: the inner, tick
and checkpoint phases only ever hold a non-empty track list, and the tick
phase index is always below the track count. -/
def pcOk : PC → Bool
  | PC.inner _ meta _ => !meta.tracks.isEmpty
  | PC.tick _ meta idx _ => !meta.tracks.isEmpty && decide (idx < meta.tracks.length)
  | PC.checkpoint _ meta _ => !meta.tracks.isEmpty
  | _ => true

/-- A two-track playlist used in concrete runs. -/
def meta2 : PlaylistMeta :=
  { id := "pl1", name := "Playlist", created_at := 0, sources := []
    tracks := ["a.m4a", "b.m4a"] }

/-- A configuration with `auto_play` on. -/
def cfgA : PlayerConfig :=
  { auto_play := true, default_audio_effects := false }

/-- The quiet environment: every lock acquired, decode succeeds, nothing
due, track still playing. -/
def e0 : Env := {}

/-- The quiet environment with the two-track sidecar readable. -/
def eLoad : Env := { readMeta := some meta2 }

/-- The environment where `open_default_stream` fails. -/
def eDevFail : Env := { deviceOk := false }

/-- The environment where `File::open` or the decoder build fails. -/
def eDecodeFail : Env := { openDecodeOk := false }

/-- The sidecar readable but the status lock contended. -/
def eLoadNoLock : Env := { readMeta := some meta2, statusLockOk := false }

/-- A sink with a queued, playing source at volume 1. -/
def sinkP : SinkState := { hasSource := true, paused := false, volume := 1 }

/-- A state playing track 0 of the two-track playlist, channel empty. -/
def sTick0 : EngineState :=
  { pc := PC.tick "d" meta2 0 sinkP, playlistDir := some "d", status := {}, queue := [] }

/-- A state at the post-track checkpoint with index 1, pointer unchanged. -/
def sChk1 : EngineState :=
  { pc := PC.checkpoint "d" meta2 1, playlistDir := some "d", status := {}, queue := [] }

/-- A state about to load track 0 of the two-track playlist. -/
def sInner0 : EngineState :=
  { pc := PC.inner "d" meta2 0, playlistDir := some "d", status := {}, queue := [] }

/-- An idle state whose pointer names the two-track playlist directory. -/
def sOuterD : EngineState :=
  { pc := PC.outer, playlistDir := some "d", status := {}, queue := [] }

/-! ## Helper lemmas -/

theorem wrapIdx_eq_of_lt {i n : Nat} (h : i < n) : wrapIdx i n = i := by
  unfold wrapIdx
  simp [Nat.not_le.mpr h]

theorem wrapIdx_lt {i n : Nat} (h : 0 < n) : wrapIdx i n < n := by
  unfold wrapIdx
  split <;> omega

theorem wrapIdx_succ_mod {i n : Nat} (h : i < n) : wrapIdx (i + 1) n = (i + 1) % n := by
  unfold wrapIdx
  split
  · have hn : i + 1 = n := by omega
    rw [hn, Nat.mod_self]
  · have hlt : i + 1 < n := by omega
    rw [Nat.mod_eq_of_lt hlt]

theorem live_step (cfg : PlayerConfig) (s : EngineState) (e : Env)
    (h : live s.pc = true) : live (step cfg s e).state.pc = true := by
  obtain ⟨pc, pd, st, q⟩ := s
  cases pc with
  | start => simp [live] at h
  | halted => simp [live] at h
  | outer =>
    simp only [step, stepOuter]
    repeat' split
    all_goals simp [live]
  | inner dir meta idx =>
    simp only [step, stepInner]
    repeat' split
    all_goals simp [live]
  | tick dir meta idx sink =>
    simp only [step, stepTick]
    repeat' split
    all_goals simp [live]
  | checkpoint dir meta idx =>
    simp only [step, stepCheckpoint]
    repeat' split
    all_goals simp [live]

theorem live_run (cfg : PlayerConfig) (s : EngineState) (es : List Env)
    (h : live s.pc = true) : live (run cfg s es).pc = true := by
  induction es generalizing s with
  | nil => exact h
  | cons e es ih => exact ih _ (live_step cfg s e h)

/-! ## Claims -/

/-- C1: a `Next` command received while playing index `i` of an `N`-track
playlist moves the index to `i + 1`, which the inner-loop wrap turns into
`(i+1) mod N`; a `Prev` at index 0 moves to `N-1` and at `i > 0` to `i-1`;
and concretely, loading the two-track playlist and issuing `next()` twice
returns the playing index to 0. -/
theorem c1_next_prev_wrap (cfg : PlayerConfig) (s : EngineState) (e : Env)
    (dir : String) (meta : PlaylistMeta) (idx : Nat) (sink : SinkState)
    (hpc : s.pc = PC.tick dir meta idx sink)
    (hl : e.statusLockOk = true) (hsrc : sink.hasSource = true)
    (hte : e.trackEnded = false) (hidx : idx < meta.tracks.length) :
    (∀ rest, s.queue = PlayerCommand.next :: rest →
      (step cfg s e).state.pc = PC.checkpoint dir meta (idx + 1) ∧
      wrapIdx (idx + 1) meta.tracks.length = (idx + 1) % meta.tracks.length) ∧
    (∀ rest, s.queue = PlayerCommand.prev :: rest →
      (step cfg s e).state.pc = PC.checkpoint dir meta
        (if idx = 0 then meta.tracks.length - 1 else idx - 1)) ∧
    (run cfgA (sendCommand (sendCommand (run cfgA (set_playlist_dir
        (run cfgA initState [e0]) "d" SetPlaylistMode.queue true) [eLoad, e0])
        PlayerCommand.next) PlayerCommand.next)
        [e0, e0, e0, e0, e0, e0]).status.current_index = 0 := by
  obtain ⟨pc, pd, st, q⟩ := s
  subst hpc
  refine ⟨?_, ?_, by decide⟩
  · intro rest hq
    subst hq
    refine ⟨?_, wrapIdx_succ_mod hidx⟩
    simp [step, stepTick, hl, hte, hsrc]
  · intro rest hq
    subst hq
    simp [step, stepTick, hl, hte, hsrc]

/-- C1 witness: the theorem applied while playing track 0 of the two-track
playlist with one `Next` queued. -/
theorem c1_next_prev_wrap_witness :
    (step cfgA { sTick0 with queue := [PlayerCommand.next] } e0).state.pc =
      PC.checkpoint "d" meta2 (0 + 1) ∧
    wrapIdx (0 + 1) meta2.tracks.length = (0 + 1) % meta2.tracks.length := by
  have h := c1_next_prev_wrap cfgA { sTick0 with queue := [PlayerCommand.next] } e0
    "d" meta2 0 sinkP rfl rfl rfl rfl (by decide)
  exact h.1 [] rfl

/-- C9: a failed `try_write` in `set_playlist_dir` leaves the whole shared
state untouched — the pointer keeps its previous value and, even in `Skip`
mode, no `Next` is enqueued — and the call still returns normally (the
function yields a state, not an error). -/
theorem c9_set_playlist_dir_lock_fail (s : EngineState) (p : String)
    (mode : SetPlaylistMode) :
    set_playlist_dir s p mode false = s := by
  simp [set_playlist_dir]

/-- C3 counterexample: `PlayerHandle::new` with a successful spawn returns a
handle even though the default audio device cannot be opened, and the spawned
thread then halts instead of running until process exit — so `new` does not
return an error exactly when the device cannot be opened. -/
theorem c3_new_counterexample :
    (PlayerHandle.new true).isSome = true ∧
    (step cfgA initState eDevFail).state.pc = PC.halted := by
  decide

/-- C3 amended: `new` returns an error exactly when spawning the playback
thread fails; the device is opened inside the spawned thread, so on a device
failure the thread logs and halts while `new` still returns a handle, and
once the device opens the thread never halts. -/
theorem c3_new_amended :
    (∀ spawnOk, (PlayerHandle.new spawnOk).isSome = spawnOk) ∧
    (∀ cfg e, e.deviceOk = false → (step cfg initState e).state.pc = PC.halted) ∧
    (∀ cfg e, e.deviceOk = true → (step cfg initState e).state.pc = PC.outer) ∧
    (∀ cfg s es, live s.pc = true → live (run cfg s es).pc = true) := by
  refine ⟨?_, ?_, ?_, live_run⟩
  · intro spawnOk
    cases spawnOk <;> simp [PlayerHandle.new]
  · intro cfg e h
    simp [step, initState, h]
  · intro cfg e h
    simp [step, initState, h]

/-- C3 amended witness: with the device opening successfully the thread
reaches the outer loop and, over any later schedule, never halts. -/
theorem c3_new_amended_witness :
    (step cfgA initState e0).state.pc = PC.outer ∧
    live (run cfgA sOuterD [e0, eLoad, e0]).pc = true := by
  refine ⟨c3_new_amended.2.2.1 cfgA e0 rfl, c3_new_amended.2.2.2 cfgA sOuterD _ rfl⟩

/-- C8 counterexample: two consecutive `Pause` commands processed while
playing produce two `paused` events — the handler re-emits unconditionally —
contradicting "at most once per actual state transition". -/
theorem c8_pause_counterexample :
    ((step cfgA { sTick0 with
          queue := [PlayerCommand.pause, PlayerCommand.pause] } e0).emitted ++
      (step cfgA (step cfgA { sTick0 with
          queue := [PlayerCommand.pause, PlayerCommand.pause] } e0).state
          e0).emitted).count Notification.paused = 2 ∧
    (step cfgA (step cfgA { sTick0 with
        queue := [PlayerCommand.pause, PlayerCommand.pause] } e0).state
        e0).state.status.is_paused = some true := by
  decide

/-- C8 amended: pausing is idempotent on state — after two `Pause` commands
`is_paused` is `true` — but every processed `Pause` emits one `paused`
event, even when the sink is already paused, so two commands emit two
events. -/
theorem c8_pause_amended (cfg : PlayerConfig) (s : EngineState) (e : Env)
    (dir : String) (meta : PlaylistMeta) (idx : Nat) (sink : SinkState)
    (rest : List PlayerCommand)
    (hpc : s.pc = PC.tick dir meta idx sink)
    (hq : s.queue = PlayerCommand.pause :: rest)
    (hl : e.statusLockOk = true) (hsrc : sink.hasSource = true)
    (hte : e.trackEnded = false) (hpd : e.positionDue = false) :
    (step cfg s e).emitted = [Notification.paused] ∧
    (step cfg s e).state.pc = PC.tick dir meta idx { sink with paused := true } ∧
    (step cfg s e).state.queue = rest := by
  obtain ⟨pc, pd, st, q⟩ := s
  subst hpc
  subst hq
  refine ⟨?_, ?_, ?_⟩ <;> simp [step, stepTick, hl, hte, hsrc, hpd]

/-- C8 amended witness: the theorem applied to a `Pause` arriving while the
sink is already paused. -/
theorem c8_pause_amended_witness :
    (step cfgA { sTick0 with
        pc := PC.tick "d" meta2 0 { sinkP with paused := true }
        queue := [PlayerCommand.pause] } e0).emitted = [Notification.paused] := by
  have h := c8_pause_amended cfgA { sTick0 with
      pc := PC.tick "d" meta2 0 { sinkP with paused := true }
      queue := [PlayerCommand.pause] } e0
    "d" meta2 0 { sinkP with paused := true } [] rfl rfl rfl rfl rfl rfl
  exact h.1

/-- C2: a `Queue`-mode `set_playlist_dir` only swaps the pointer (program
counter, status and command queue untouched); every mid-track step (inner
preamble or tick) keeps the directory and metadata being played and is
entirely independent of the pointer value; and the post-track checkpoint is
exactly where a pointer difference takes effect: it restarts the outer loop
iff the re-read pointer differs from the playing directory, and otherwise
continues the same playlist at the adjusted index. -/
theorem c2_queue_switch_checkpoint_only (cfg : PlayerConfig) :
    (∀ s p lockOk,
      (set_playlist_dir s p SetPlaylistMode.queue lockOk).pc = s.pc ∧
      (set_playlist_dir s p SetPlaylistMode.queue lockOk).status = s.status ∧
      (set_playlist_dir s p SetPlaylistMode.queue lockOk).queue = s.queue) ∧
    (∀ s e dir meta idx sink, s.pc = PC.tick dir meta idx sink →
      (∃ i k, (step cfg s e).state.pc = PC.tick dir meta i k) ∨
      (∃ i, (step cfg s e).state.pc = PC.checkpoint dir meta i)) ∧
    (∀ s e dir meta idx, s.pc = PC.inner dir meta idx →
      (∃ i, (step cfg s e).state.pc = PC.inner dir meta i) ∨
      (∃ i k, (step cfg s e).state.pc = PC.tick dir meta i k)) ∧
    (∀ s e p dir meta idx sink, s.pc = PC.tick dir meta idx sink →
      (step cfg { s with playlistDir := p } e).state.pc = (step cfg s e).state.pc) ∧
    (∀ s e p dir meta idx, s.pc = PC.inner dir meta idx →
      (step cfg { s with playlistDir := p } e).state.pc = (step cfg s e).state.pc) ∧
    (∀ s e dir meta idx, s.pc = PC.checkpoint dir meta idx →
      (((if e.pdirLockOk then s.playlistDir else none) = some dir →
          (step cfg s e).state.pc = PC.inner dir meta idx) ∧
       ((if e.pdirLockOk then s.playlistDir else none) ≠ some dir →
          (step cfg s e).state.pc = PC.outer))) := by
  refine ⟨?_, ?_, ?_, ?_, ?_, ?_⟩
  · intro s p lockOk
    unfold set_playlist_dir
    split <;> simp
  · intro s e dir meta idx sink hpc
    obtain ⟨pc, pd, st, q⟩ := s
    subst hpc
    simp only [step, stepTick]
    repeat' split
    all_goals first
      | exact Or.inl ⟨_, _, rfl⟩
      | exact Or.inr ⟨_, rfl⟩
  · intro s e dir meta idx hpc
    obtain ⟨pc, pd, st, q⟩ := s
    subst hpc
    simp only [step, stepInner]
    repeat' split
    all_goals first
      | exact Or.inl ⟨_, rfl⟩
      | exact Or.inr ⟨_, _, rfl⟩
  · intro s e p dir meta idx sink hpc
    obtain ⟨pc, pd, st, q⟩ := s
    subst hpc
    rfl
  · intro s e p dir meta idx hpc
    obtain ⟨pc, pd, st, q⟩ := s
    subst hpc
    rfl
  · intro s e dir meta idx hpc
    obtain ⟨pc, pd, st, q⟩ := s
    subst hpc
    constructor
    · intro h
      simp only [step, stepCheckpoint]
      simp only [EngineState.playlistDir] at h
      simp [h]
    · intro h
      simp only [step, stepCheckpoint]
      simp only [EngineState.playlistDir] at h
      simp [h]

/-- C2 witness: the checkpoint conjunct applied with an unchanged pointer
(the engine continues the same playlist) and the pointer-independence
conjunct applied mid-track. -/
theorem c2_queue_switch_checkpoint_only_witness :
    (step cfgA sChk1 e0).state.pc = PC.inner "d" meta2 1 ∧
    (step cfgA { sTick0 with playlistDir := some "q" } e0).state.pc =
      (step cfgA sTick0 e0).state.pc := by
  constructor
  · exact ((c2_queue_switch_checkpoint_only cfgA).2.2.2.2.2 sChk1 e0 "d" meta2 1
      rfl).1 (by decide)
  · exact (c2_queue_switch_checkpoint_only cfgA).2.2.2.1 sTick0 e0 (some "q")
      "d" meta2 0 sinkP rfl

theorem isEmpty_false_len {α : Type} {l : List α} (h : l.isEmpty = false) :
    0 < l.length := by
  cases l <;> simp_all

/-- C4: when opening or decoding the file of track `k` fails, the inner
preamble appends nothing to the sink and emits only track-changed (no error
is surfaced); the next tick sees the sink empty and advances to `k+1`
without consuming a command and without sleeping; the checkpoint (pointer
unchanged) re-enters the inner loop, whose next pass emits the
track-changed event for index `(k+1) mod N` — and no step on this path
slept. -/
theorem c4_decode_failure_advances (cfg : PlayerConfig) (s : EngineState)
    (dir : String) (meta : PlaylistMeta) (idx : Nat) (e1 e2 e3 e4 : Env)
    (hpc : s.pc = PC.inner dir meta idx) (hdir : s.playlistDir = some dir)
    (hidx : idx < meta.tracks.length)
    (h1l : e1.statusLockOk = true) (h1d : e1.openDecodeOk = false)
    (h2l : e2.statusLockOk = true) (h2p : e2.positionDue = false)
    (h3p : e3.pdirLockOk = true) :
    (step cfg s e1).emitted =
      [Notification.trackChanged idx (meta.tracks.getD idx "")] ∧
    (step cfg s e1).slept = false ∧
    (step cfg s e1).state.pc = PC.tick dir meta idx SinkState.new ∧
    SinkState.new.hasSource = false ∧
    (step cfg (step cfg s e1).state e2).state.pc =
      PC.checkpoint dir meta (idx + 1) ∧
    (step cfg (step cfg s e1).state e2).slept = false ∧
    (step cfg (step cfg s e1).state e2).emitted = [] ∧
    (step cfg (step cfg s e1).state e2).state.queue = s.queue ∧
    (step cfg (step cfg (step cfg s e1).state e2).state e3).state.pc =
      PC.inner dir meta (idx + 1) ∧
    (step cfg (step cfg (step cfg s e1).state e2).state e3).slept = false ∧
    (∃ nm rest,
      (step cfg (step cfg (step cfg (step cfg s e1).state e2).state e3).state
        e4).emitted =
        Notification.trackChanged ((idx + 1) % meta.tracks.length) nm :: rest) := by
  obtain ⟨pc, pd, st, q⟩ := s
  subst hpc
  subst hdir
  have hw : wrapIdx idx meta.tracks.length = idx := wrapIdx_eq_of_lt hidx
  have h1 : step cfg ⟨PC.inner dir meta idx, some dir, st, q⟩ e1 =
      { state := { pc := PC.tick dir meta idx SinkState.new
                   playlistDir := some dir
                   status := { st with current_index := idx
                                       current_track := some (meta.tracks.getD idx "") }
                   queue := q }
        emitted := [Notification.trackChanged idx (meta.tracks.getD idx "")]
        slept := false, stopped := false } := by
    simp [step, stepInner, h1l, h1d, hw]
  have h2 : step cfg (step cfg ⟨PC.inner dir meta idx, some dir, st, q⟩ e1).state e2 =
      { state := { pc := PC.checkpoint dir meta (idx + 1)
                   playlistDir := some dir
                   status := { st with current_index := idx
                                       current_track := some (meta.tracks.getD idx "")
                                       current_pos := some e2.sinkPos
                                       is_paused := some false
                                       volume := some 1 }
                   queue := q }
        emitted := [], slept := false, stopped := false } := by
    rw [h1]
    cases hT : e2.trackEnded <;>
      simp [step, stepTick, h2l, h2p, hT, SinkState.new]
  have h3 : step cfg (step cfg (step cfg ⟨PC.inner dir meta idx, some dir, st, q⟩
      e1).state e2).state e3 =
      { state := { pc := PC.inner dir meta (idx + 1)
                   playlistDir := some dir
                   status := { st with current_index := idx
                                       current_track := some (meta.tracks.getD idx "")
                                       current_pos := some e2.sinkPos
                                       is_paused := some false
                                       volume := some 1 }
                   queue := q }
        emitted := [], slept := false, stopped := false } := by
    rw [h2]
    simp [step, stepCheckpoint, h3p]
  refine ⟨by rw [h1], by rw [h1], by rw [h1], rfl, by rw [h2], by rw [h2],
    by rw [h2], by rw [h2], by rw [h3], by rw [h3], ?_⟩
  rw [h3]
  simp only [step, stepInner, wrapIdx_succ_mod hidx]
  repeat' split
  all_goals exact ⟨_, _, rfl⟩

/-- C4 witness: track 0 of the two-track playlist fails to decode and the
engine reaches the inner pass for track 1 without sleeping. -/
theorem c4_decode_failure_advances_witness :
    (step cfgA sInner0 eDecodeFail).state.pc = PC.tick "d" meta2 0 SinkState.new ∧
    (step cfgA (step cfgA sInner0 eDecodeFail).state e0).state.pc =
      PC.checkpoint "d" meta2 (0 + 1) ∧
    (step cfgA (step cfgA sInner0 eDecodeFail).state e0).slept = false := by
  have h := c4_decode_failure_advances cfgA sInner0 "d" meta2 0
    eDecodeFail e0 e0 e0 rfl rfl (by decide) rfl rfl rfl rfl rfl
  exact ⟨h.2.2.1, h.2.2.2.2.1, h.2.2.2.2.2.1⟩

/-- C5: the initial state satisfies the indexing invariant and every step
preserves it; an outer pass whose sidecar parses to an empty track list
idles (stays in the outer loop and sleeps) instead of entering the inner
loop; under the invariant the inner-loop access `tracks[idx]` uses a
wrapped index strictly below the track count, and the `Prev` computation
targets an index below the count with `len - 1` applied only when
`1 ≤ len`. -/
theorem c5_empty_playlist_safe (cfg : PlayerConfig) :
    pcOk initState.pc = true ∧
    (∀ s e, pcOk s.pc = true → pcOk (step cfg s e).state.pc = true) ∧
    (∀ s e meta, s.pc = PC.outer → e.readMeta = some meta →
      meta.tracks.isEmpty = true →
      (step cfg s e).state.pc = PC.outer ∧ (step cfg s e).slept = true) ∧
    (∀ (s : EngineState) dir meta i, pcOk s.pc = true → s.pc = PC.inner dir meta i →
      wrapIdx i meta.tracks.length < meta.tracks.length) ∧
    (∀ (s : EngineState) dir meta idx sink, pcOk s.pc = true →
      s.pc = PC.tick dir meta idx sink →
      1 ≤ meta.tracks.length ∧
      (if idx = 0 then meta.tracks.length - 1 else idx - 1) <
        meta.tracks.length) := by
  refine ⟨rfl, ?_, ?_, ?_, ?_⟩
  · intro s e h
    obtain ⟨pc, pd, st, q⟩ := s
    cases pc with
    | start =>
      simp only [step]
      cases e.deviceOk <;> simp [pcOk]
    | halted => exact h
    | outer =>
      simp only [step, stepOuter]
      repeat' split
      all_goals simp_all [pcOk]
    | inner dir meta idx =>
      simp only [pcOk] at h
      have hlen : 0 < meta.tracks.length :=
        isEmpty_false_len (by simpa using h)
      have hwl : wrapIdx idx meta.tracks.length < meta.tracks.length :=
        wrapIdx_lt hlen
      simp only [step, stepInner]
      repeat' split
      all_goals simp_all [pcOk]
    | tick dir meta idx sink =>
      simp only [pcOk, Bool.and_eq_true] at h
      simp only [step, stepTick]
      repeat' split
      all_goals simp_all [pcOk]
    | checkpoint dir meta idx =>
      simp only [pcOk] at h
      simp only [step, stepCheckpoint]
      repeat' split
      all_goals simp_all [pcOk]
  · intro s e meta hpc hm hemp
    obtain ⟨pc, pd, st, q⟩ := s
    subst hpc
    refine ⟨?_, ?_⟩ <;>
      (simp only [step, stepOuter, hm, hemp]; repeat' split; all_goals simp)
  · intro s dir meta i h hpc
    rw [hpc] at h
    simp only [pcOk] at h
    exact wrapIdx_lt (isEmpty_false_len (by simpa using h))
  · intro s dir meta idx sink h hpc
    rw [hpc] at h
    simp only [pcOk, Bool.and_eq_true, decide_eq_true_eq] at h
    have hlen : 0 < meta.tracks.length := isEmpty_false_len (by simpa using h.1)
    refine ⟨hlen, ?_⟩
    have := h.2
    split <;> omega

/-- C5 witness: the invariant holds of the concrete playing state and is
preserved by a quiet tick, and the empty-playlist idling conjunct applied
to a parsed empty sidecar. -/
theorem c5_empty_playlist_safe_witness :
    pcOk (step cfgA sTick0 e0).state.pc = true ∧
    (step cfgA sOuterD { readMeta := some { meta2 with tracks := [] } }).state.pc
      = PC.outer := by
  constructor
  · exact (c5_empty_playlist_safe cfgA).2.1 sTick0 e0 (by decide)
  · exact ((c5_empty_playlist_safe cfgA).2.2.1 sOuterD
      { readMeta := some { meta2 with tracks := [] } }
      { meta2 with tracks := [] } rfl rfl rfl).1

/-- C6: an outer pass that reads the pointer, parses the sidecar and takes
the status lock resets the status completely — the identity of the new
playlist, index 0, and every other field `none` — while also emitting the
playlist-changed event; and when the status lock is contended the engine
does not adopt the playlist at all (it stays in the outer loop with the
status untouched). -/
theorem c6_status_reset_on_adoption (cfg : PlayerConfig) (s : EngineState)
    (dir : String) (meta : PlaylistMeta) (e e2 : Env)
    (hpc : s.pc = PC.outer) (hdir : s.playlistDir = some dir)
    (hl : e.pdirLockOk = true) (hm : e.readMeta = some meta)
    (hs : e.statusLockOk = true)
    (hl2 : e2.pdirLockOk = true) (hm2 : e2.readMeta = some meta)
    (hs2 : e2.statusLockOk = false) :
    (step cfg s e).state.status =
      { playlist_id := some meta.id, playlist_name := some meta.name
        current_index := 0, current_track := none, current_pos := none
        total_duration := none, is_paused := none, volume := none } ∧
    (step cfg s e).emitted = [Notification.playlistChanged meta.id meta.name] ∧
    (step cfg s e2).state.status = s.status ∧
    (step cfg s e2).state.pc = PC.outer := by
  obtain ⟨pc, pd, st, q⟩ := s
  subst hpc
  subst hdir
  refine ⟨?_, ?_, ?_, ?_⟩ <;>
    (simp only [step, stepOuter, hl, hm, hs, hl2, hm2, hs2]; repeat' split;
     all_goals simp_all)

/-- C6 witness: the theorem applied to the two-track sidecar from the idle
state. -/
theorem c6_status_reset_on_adoption_witness :
    (step cfgA sOuterD eLoad).state.status =
      { playlist_id := some meta2.id, playlist_name := some meta2.name
        current_index := 0, current_track := none, current_pos := none
        total_duration := none, is_paused := none, volume := none } := by
  exact (c6_status_reset_on_adoption cfgA sOuterD "d" meta2 eLoad eLoadNoLock
    rfl rfl rfl rfl rfl rfl rfl rfl).1

/-- C7: a `SetIndex(i)` processed while playing index `idx` is a no-op when
`i = idx` (no stop, no break, command still consumed); when `i ≠ idx` it
adopts `i`, stops the sink and breaks to the checkpoint, after which the
engine re-enters the inner loop at `i` and the index the next track
actually plays at is the wrap of `i`, strictly below the track count. -/
theorem c7_set_index (cfg : PlayerConfig) (s : EngineState)
    (dir : String) (meta : PlaylistMeta) (idx : Nat) (sink : SinkState)
    (i : Nat) (rest : List PlayerCommand) (e e2 e3 : Env)
    (hpc : s.pc = PC.tick dir meta idx sink)
    (hq : s.queue = PlayerCommand.setIndex i :: rest)
    (hdir : s.playlistDir = some dir) (hne : meta.tracks ≠ [])
    (hl : e.statusLockOk = true) (hsrc : sink.hasSource = true)
    (hte : e.trackEnded = false)
    (h2p : e2.pdirLockOk = true)
    (h3l : e3.statusLockOk = true) (h3l2 : e3.statusLockOk2 = true) :
    (i = idx →
      (step cfg s e).state.pc = PC.tick dir meta idx sink ∧
      (step cfg s e).stopped = false ∧
      (step cfg s e).state.queue = rest) ∧
    (i ≠ idx →
      (step cfg s e).state.pc = PC.checkpoint dir meta i ∧
      (step cfg s e).stopped = true ∧
      (step cfg s e).state.queue = rest ∧
      (step cfg (step cfg s e).state e2).state.pc = PC.inner dir meta i ∧
      (∃ k, (step cfg (step cfg (step cfg s e).state e2).state e3).state.pc =
        PC.tick dir meta (wrapIdx i meta.tracks.length) k) ∧
      wrapIdx i meta.tracks.length < meta.tracks.length) := by
  obtain ⟨pc, pd, st, q⟩ := s
  subst hpc
  subst hq
  subst hdir
  have hlen : 0 < meta.tracks.length := List.length_pos.mpr hne
  constructor
  · intro hi
    subst hi
    refine ⟨?_, ?_, ?_⟩ <;> simp [step, stepTick, hl, hte, hsrc]
  · intro hi
    have h1 : step cfg ⟨PC.tick dir meta idx sink, some dir, st,
        PlayerCommand.setIndex i :: rest⟩ e =
        { state := { pc := PC.checkpoint dir meta i
                     playlistDir := some dir
                     status := { st with current_pos := some e.sinkPos
                                         is_paused := some sink.paused
                                         volume := some sink.volume }
                     queue := rest }
          emitted := if e.positionDue
            then [Notification.seekPositionChanged e.sinkPos] else []
          slept := false, stopped := true } := by
      simp [step, stepTick, hl, hte, hsrc, hi]
    have h2 : step cfg (step cfg ⟨PC.tick dir meta idx sink, some dir, st,
        PlayerCommand.setIndex i :: rest⟩ e).state e2 =
        { state := { pc := PC.inner dir meta i
                     playlistDir := some dir
                     status := { st with current_pos := some e.sinkPos
                                         is_paused := some sink.paused
                                         volume := some sink.volume }
                     queue := rest }
          emitted := [], slept := false, stopped := false } := by
      rw [h1]
      simp [step, stepCheckpoint, h2p]
    refine ⟨by rw [h1], by rw [h1], by rw [h1], by rw [h2], ?_, wrapIdx_lt hlen⟩
    rw [h2]
    simp only [step, stepInner, h3l, h3l2, if_true]
    repeat' split
    all_goals exact ⟨_, rfl⟩

/-- C7 witness: `SetIndex(5)` while playing index 0 of the two-track
playlist adopts 5, stops the sink, and the next track plays at the wrapped
index `wrapIdx 5 2 = 0 < 2`. -/
theorem c7_set_index_witness :
    (step cfgA { sTick0 with queue := [PlayerCommand.setIndex 5] } e0).state.pc =
      PC.checkpoint "d" meta2 5 ∧
    wrapIdx 5 meta2.tracks.length < meta2.tracks.length := by
  have h := c7_set_index cfgA { sTick0 with queue := [PlayerCommand.setIndex 5] }
    "d" meta2 0 sinkP 5 [] e0 e0 e0 rfl rfl rfl (by decide) rfl rfl rfl rfl rfl rfl
  exact ⟨(h.2 (by decide)).1, (h.2 (by decide)).2.2.2.2.2⟩

/-- C10: the façade always appends the sent command to the unbounded channel
(delivery never fails); an engine step consumes at most one command from the
front of the queue and leaves the queue untouched in every phase other than
the tick loop; and concretely, `set_playlist_dir(dir, Skip)` issued while
the engine is idle enqueues a `Next` that survives playlist adoption and
track loading and is applied on the first tick of the first track, skipping
it to track 1. -/
theorem c10_commands_never_lost (cfg : PlayerConfig) :
    (∀ s c, (sendCommand s c).queue = s.queue ++ [c]) ∧
    (∀ s e, (step cfg s e).state.queue = s.queue ∨
      (step cfg s e).state.queue = s.queue.tail) ∧
    (∀ s e, (∀ dir meta idx sink, s.pc ≠ PC.tick dir meta idx sink) →
      (step cfg s e).state.queue = s.queue) ∧
    ((run cfgA (set_playlist_dir (run cfgA initState [e0, e0]) "d"
        SetPlaylistMode.skip true) [eLoad, e0]).queue = [PlayerCommand.next] ∧
     (step cfgA (run cfgA (set_playlist_dir (run cfgA initState [e0, e0]) "d"
        SetPlaylistMode.skip true) [eLoad, e0]) e0).state.pc =
       PC.checkpoint "d" meta2 1 ∧
     (step cfgA (run cfgA (set_playlist_dir (run cfgA initState [e0, e0]) "d"
        SetPlaylistMode.skip true) [eLoad, e0, e0, e0]) e0).emitted =
       [Notification.trackChanged 1 "b.m4a",
        Notification.trackDurationChanged none]) := by
  refine ⟨fun s c => rfl, ?_, ?_, by decide⟩
  · intro s e
    obtain ⟨pc, pd, st, q⟩ := s
    cases pc with
    | start => exact Or.inl rfl
    | halted => exact Or.inl rfl
    | outer =>
      simp only [step, stepOuter]
      repeat' split
      all_goals exact Or.inl rfl
    | inner dir meta idx =>
      simp only [step, stepInner]
      repeat' split
      all_goals exact Or.inl rfl
    | tick dir meta idx sink =>
      simp only [step, stepTick]
      repeat' split
      all_goals first
        | exact Or.inl rfl
        | exact Or.inr rfl
    | checkpoint dir meta idx =>
      simp only [step, stepCheckpoint]
      repeat' split
      all_goals exact Or.inl rfl
  · intro s e h
    obtain ⟨pc, pd, st, q⟩ := s
    cases pc with
    | start => rfl
    | halted => rfl
    | outer =>
      simp only [step, stepOuter]
      repeat' split
      all_goals rfl
    | inner dir meta idx =>
      simp only [step, stepInner]
      repeat' split
      all_goals rfl
    | tick dir meta idx sink => exact absurd rfl (h dir meta idx sink)
    | checkpoint dir meta idx =>
      simp only [step, stepCheckpoint]
      repeat' split
      all_goals rfl

/-- C10 witness: a non-tick phase (the idle outer loop) leaves the queue
untouched. -/
theorem c10_commands_never_lost_witness :
    (step cfgA sOuterD e0).state.queue = sOuterD.queue := by
  exact (c10_commands_never_lost cfgA).2.2.1 sOuterD e0
    (fun dir meta idx sink h => PC.noConfusion h)

end Musicd
